import Mathlib

/-!
Verification of the buildah core (`buildah.go`, `cmd/buildah/config.go`):
the Builder record, its JSON persistence (`Save` / `OpenBuilder`), the
path-based resolver (`OpenBuilderByPath`) and the configuration mutator
(`updateConfig`).  Go code is shallowly embedded: the JSON encoding is
modelled at the granularity of field/value pairs, Go maps as association
lists, the container store as a list of containers, and the filesystem as
an association of paths to file contents.
-/

set_option maxHeartbeats 1000000

namespace Buildah

/-- Name of the package, `Package = "buildah"` in `buildah.go`. -/
def Package : String := "buildah"

/-- Fixed marker string, `containerType = Package + " 0.0.0"` in `buildah.go`,
used to identify build-container metadata. -/
def containerType : String := Package ++ " 0.0.0"

/-- Name of the per-container metadata file, `stateFile = Package + ".json"`. -/
def stateFile : String := Package ++ ".json"

/-- JSON values at the granularity the `Builder` encoding uses: strings, byte
blobs (base64 strings in the concrete encoding), arrays of strings,
string-to-string objects (Go `map[string]string`), and objects used as string
sets (the `Expose` field's map to empty markers). -/
inductive JVal where
  | jstr : String → JVal
  | jbytes : List Nat → JVal
  | jarr : List String → JVal
  | jmap : List (String × String) → JVal
  | jset : List String → JVal
deriving DecidableEq

/-- The `Builder` struct of `buildah.go`, with its JSON-visible fields in
declaration order.  The unexported `store storage.Store` handle is not part
of the persisted record and is omitted.  Go byte slices are `List Nat`,
Go string slices are `List String`, Go `map[string]string` is an association
list, and `Expose`'s `map[string]interface` (a set of port specifications) is
the list of its keys. -/
structure Builder where
  «Type» : String
  FromImage : String
  Config : List Nat
  Manifest : List Nat
  Container : String
  ContainerID : String
  MountPoint : String
  Mounts : List String
  Links : List String
  Annotations : List (String × String)
  CreatedBy : String
  OS : String
  Architecture : String
  Maintainer : String
  User : String
  Workdir : String
  Env : List String
  Cmd : List String
  Entrypoint : List String
  Expose : List String
  Labels : List (String × String)
  Volumes : List String
  Arg : List (String × String)
deriving DecidableEq

/-- The zero `Builder` (`b := &Builder\x7b\x7d` before `json.Unmarshal` fills it). -/
def emptyBuilder : Builder :=
  ⟨"", "", [], [], "", "", "", [], [], [], "", "", "", "", "", "", [], [], [], [], [], [], []⟩

/-- Encode a string field with `omitempty`: the pair is omitted when the
value is the empty string. -/
def omitS (k s : String) : List (String × JVal) :=
  if s = "" then [] else [(k, JVal.jstr s)]

/-- Encode a byte-slice field with `omitempty`. -/
def omitB (k : String) (v : List Nat) : List (String × JVal) :=
  if v = [] then [] else [(k, JVal.jbytes v)]

/-- Encode a string-slice field with `omitempty`. -/
def omitA (k : String) (v : List String) : List (String × JVal) :=
  if v = [] then [] else [(k, JVal.jarr v)]

/-- Encode a string-map field with `omitempty`. -/
def omitM (k : String) (v : List (String × String)) : List (String × JVal) :=
  if v = [] then [] else [(k, JVal.jmap v)]

/-- Encode a string-set field (`Expose`) with `omitempty`. -/
def omitE (k : String) (v : List String) : List (String × JVal) :=
  if v = [] then [] else [(k, JVal.jset v)]

/-- The encoding `json.Marshal` produces for a `Builder`: its fields in
struct declaration order under their JSON tags, every field but `type`
carrying `omitempty`.  This is what `Builder.Save` writes. -/
def marshalBuilder (b : Builder) : List (String × JVal) :=
  ("type", JVal.jstr b.«Type») ::
  (omitS "image" b.FromImage ++
  (omitB "config" b.Config ++
  (omitB "manifest" b.Manifest ++
  (omitS "container-name" b.Container ++
  (omitS "container-id" b.ContainerID ++
  (omitS "mountpoint" b.MountPoint ++
  (omitA "mounts" b.Mounts ++
  (omitA "links" b.Links ++
  (omitM "annotations" b.Annotations ++
  (omitS "created-by" b.CreatedBy ++
  (omitS "os" b.OS ++
  (omitS "arch" b.Architecture ++
  (omitS "maintainer" b.Maintainer ++
  (omitS "user" b.User ++
  (omitS "workingdir" b.Workdir ++
  (omitA "env" b.Env ++
  (omitA "cmd" b.Cmd ++
  (omitA "entrypoint" b.Entrypoint ++
  (omitE "expose" b.Expose ++
  (omitM "labels" b.Labels ++
  (omitA "volumes" b.Volumes ++
  omitM "arg" b.Arg)))))))))))))))))))))

/-- One step of `json.Unmarshal` into a `Builder`: a known key whose value has
the right shape sets the corresponding field, a known key with a wrongly
shaped value is a decode error (`none`), an unknown key is ignored, as Go's
decoder does. -/
def applyField (b : Builder) : String × JVal → Option Builder
  | ("type", v) =>
    match v with | JVal.jstr s => some { b with «Type» := s } | _ => none
  | ("image", v) =>
    match v with | JVal.jstr s => some { b with FromImage := s } | _ => none
  | ("config", v) =>
    match v with | JVal.jbytes s => some { b with Config := s } | _ => none
  | ("manifest", v) =>
    match v with | JVal.jbytes s => some { b with Manifest := s } | _ => none
  | ("container-name", v) =>
    match v with | JVal.jstr s => some { b with Container := s } | _ => none
  | ("container-id", v) =>
    match v with | JVal.jstr s => some { b with ContainerID := s } | _ => none
  | ("mountpoint", v) =>
    match v with | JVal.jstr s => some { b with MountPoint := s } | _ => none
  | ("mounts", v) =>
    match v with | JVal.jarr s => some { b with Mounts := s } | _ => none
  | ("links", v) =>
    match v with | JVal.jarr s => some { b with Links := s } | _ => none
  | ("annotations", v) =>
    match v with | JVal.jmap s => some { b with Annotations := s } | _ => none
  | ("created-by", v) =>
    match v with | JVal.jstr s => some { b with CreatedBy := s } | _ => none
  | ("os", v) =>
    match v with | JVal.jstr s => some { b with OS := s } | _ => none
  | ("arch", v) =>
    match v with | JVal.jstr s => some { b with Architecture := s } | _ => none
  | ("maintainer", v) =>
    match v with | JVal.jstr s => some { b with Maintainer := s } | _ => none
  | ("user", v) =>
    match v with | JVal.jstr s => some { b with User := s } | _ => none
  | ("workingdir", v) =>
    match v with | JVal.jstr s => some { b with Workdir := s } | _ => none
  | ("env", v) =>
    match v with | JVal.jarr s => some { b with Env := s } | _ => none
  | ("cmd", v) =>
    match v with | JVal.jarr s => some { b with Cmd := s } | _ => none
  | ("entrypoint", v) =>
    match v with | JVal.jarr s => some { b with Entrypoint := s } | _ => none
  | ("expose", v) =>
    match v with | JVal.jset s => some { b with Expose := s } | _ => none
  | ("labels", v) =>
    match v with | JVal.jmap s => some { b with Labels := s } | _ => none
  | ("volumes", v) =>
    match v with | JVal.jarr s => some { b with Volumes := s } | _ => none
  | ("arg", v) =>
    match v with | JVal.jmap s => some { b with Arg := s } | _ => none
  | (_, _) => some b

/-- Fold `applyField` over the decoded field list. -/
def unmarshalAux (b : Builder) : List (String × JVal) → Option Builder
  | [] => some b
  | f :: rest =>
    match applyField b f with
    | some b2 => unmarshalAux b2 rest
    | none => none

/-- Model of `json.Unmarshal(buildstate, &b)` with `b` a fresh `Builder`. -/
def unmarshalBuilder (fields : List (String × JVal)) : Option Builder :=
  unmarshalAux emptyBuilder fields

/-- The error outcomes of this core (§7 of the spec): decode failure, type-tag
mismatch (`"container is not a buildah container"`), unknown container
(`storage.ErrContainerUnknown`), and a failure coming from the Store. -/
inductive BuildahError where
  | decodeErr
  | typeMismatch
  | notFound
  | storeErr
deriving DecidableEq

/-- The decoding part of `OpenBuilder` (`buildah.go`): unmarshal the bytes
into a fresh `Builder`, then reject the record unless its `Type` tag equals
`containerType`.  Reading the state file from the store directory is the
caller's part and can only fail with a store error before any decoding. -/
def openBuilderDecode (fields : List (String × JVal)) : Except BuildahError Builder :=
  match unmarshalBuilder fields with
  | none => Except.error BuildahError.decodeErr
  | some b =>
    if b.«Type» = containerType then Except.ok b
    else Except.error BuildahError.typeMismatch

/-- One container of the Store, as `OpenBuilderByPath` sees it: its ID and
the metadata blob `store.GetMetadata(container.ID)` returns.  `metadataErr`
models `GetMetadata` itself failing (a store error, which aborts the scan);
`metadata = none` models bytes on which `json.Unmarshal` fails outright;
`metadata = some fields` models bytes that parse as a JSON object. -/
structure StoreContainer where
  id : String
  metadataErr : Bool
  metadata : Option (List (String × JVal))
deriving DecidableEq

/-- The `builderMatchesPath` closure of `OpenBuilderByPath` (`buildah.go`):
the path equals `MountPoint`, or occurs in `Mounts`, or occurs in `Links`. -/
def builderMatchesPath (b : Builder) (path : String) : Bool :=
  b.MountPoint == path || b.Mounts.contains path || b.Links.contains path

/-- Model of `OpenBuilderByPath` (`buildah.go`): scan the Store's containers in
enumeration order; for each, read its metadata (a failing read aborts the
scan with the store's error), unmarshal it, and return the first record that
decodes, carries the `containerType` tag and matches the path; containers
that fail to decode or carry another type tag are skipped.  If nothing
matches the result is `storage.ErrContainerUnknown`.  The `path` argument is
the already absolutized path (`filepath.Abs` is the surrounding OS's
operation). -/
def openBuilderByPath (containers : List StoreContainer) (path : String) :
    Except BuildahError Builder :=
  match containers with
  | [] => Except.error BuildahError.notFound
  | c :: rest =>
    if c.metadataErr then Except.error BuildahError.storeErr
    else
      match c.metadata.bind unmarshalBuilder with
      | some b =>
        if b.«Type» = containerType ∧ builderMatchesPath b path then Except.ok b
        else openBuilderByPath rest path
      | none => openBuilderByPath rest path

/-- Whether one container is the one a path-based lookup returns: its
metadata decodes to a record with the right type tag matching the path. -/
def candMatch (path : String) (c : StoreContainer) : Option Builder :=
  match c.metadata.bind unmarshalBuilder with
  | some b =>
    if b.«Type» = containerType ∧ builderMatchesPath b path then some b else none
  | none => none

/-- Content of one metadata file, at the granularity of the encoding: the
sequence of encoded fields.  A partially written file is a prefix of it. -/
abbrev FileData := List (String × JVal)

/-- The filesystem as the metadata codec sees it: paths with file contents. -/
abbrev FS := List (String × FileData)

/-- Read a file: the content stored under the path, if any. -/
def fsRead (fs : FS) (p : String) : Option FileData :=
  (fs.find? (fun q => q.1 == p)).map (fun q => q.2)

/-- Create or replace a file. -/
def fsWrite (fs : FS) (p : String) (d : FileData) : FS :=
  (p, d) :: fs.filter (fun q => q.1 != p)

/-- Remove a file (a no-op when absent). -/
def fsRemove (fs : FS) (p : String) : FS :=
  fs.filter (fun q => q.1 != p)

/-- Path `filepath.Join(cdir, stateFile)`: where `Save` puts the metadata. -/
def targetFile (cdir : String) : String := cdir ++ "/" ++ stateFile

/-- The temporary file `ioutils.AtomicWriteFile` writes next to the target. -/
def tmpFile (cdir : String) : String := cdir ++ "/.tmp-" ++ stateFile

/-- Modelled from the spec: `ioutils.AtomicWriteFile` (an external
`containers/storage` helper, not part of this repository's files) writes the
data to a temporary file in the target's directory and only then atomically
renames it over the target.  These are all the filesystem states observable
before the rename: the initial state and, for every prefix of the data, the
state with that prefix written to the temporary file. -/
def atomicPreStates (fs : FS) (tmp : String) (data : FileData) : List FS :=
  fs :: (List.range (data.length + 1)).map (fun k => fsWrite fs tmp (data.take k))

/-- Modelled from the spec: the atomic rename installing the fully written
temporary file at the target path. -/
def atomicCommit (fs : FS) (target tmp : String) (data : FileData) : FS :=
  fsWrite (fsRemove (fsWrite fs tmp data) tmp) target data

/-- Modelled from the spec: the cleanup after a failure at any point `k` of
the temporary-file write — the temporary file is removed, the target was
never touched. -/
def atomicAbort (fs : FS) (tmp : String) (data : FileData) (k : Nat) : FS :=
  fsRemove (fsWrite fs tmp (data.take k)) tmp

/-- Model of `Builder.Save` (`buildah.go`): marshal the record (`json.Marshal` cannot
fail on the `Builder` struct, so the model has no marshal-error arm), look up
the container's directory (a failure propagates before anything is written),
and atomically write the encoding to `filepath.Join(cdir, stateFile)`. -/
def save (b : Builder) (getContainerDir : String → Option String) (fs : FS) :
    Except BuildahError FS :=
  match getContainerDir b.ContainerID with
  | none => Except.error BuildahError.storeErr
  | some cdir =>
    Except.ok (atomicCommit fs (targetFile cdir) (tmpFile cdir) (marshalBuilder b))

/-- The configuration flags `updateConfig` (`cmd/buildah/config.go`) reads
from its `cli.Context`: `none` models `c.IsSet(flag) == false`, `some v` the
supplied value.  `annotations` carries the repeatable `--annotation` flag's
values. -/
structure ConfigOptions where
  author : Option String := none
  createdBy : Option String := none
  arch : Option String := none
  os : Option String := none
  user : Option String := none
  port : Option (List String) := none
  env : Option (List String) := none
  entrypoint : Option String := none
  cmd : Option String := none
  volume : Option (List String) := none
  label : Option (List String) := none
  workingdir : Option String := none
  annotations : Option (List String) := none
deriving DecidableEq

/-- A `cli.Context` in which no configuration flag was set. -/
def noOptions : ConfigOptions := {}

/-- Split a character list at the first occurrence of `sep`: the part before
it and the part after it, or `none` when `sep` does not occur. -/
def splitFirst (sep : Char) : List Char → Option (List Char × List Char)
  | [] => none
  | ch :: rest =>
    if ch = sep then some ([], rest)
    else (splitFirst sep rest).map (fun q => (ch :: q.1, q.2))

/-- Go's `strings.SplitN(s, sep, 2)` for a one-character separator: `[before,
after]` split at the first occurrence, or `[s]` when `sep` is absent. -/
def goSplitN2 (s : String) (sep : Char) : List String :=
  match splitFirst sep s.data with
  | some q => [String.mk q.1, String.mk q.2]
  | none => [s]

/-- Set a key in a Go string map (association-list model): replace the value
under an existing key, append the binding otherwise. -/
def setMapKV (m : List (String × String)) (k v : String) : List (String × String) :=
  if m.any (fun p => p.1 == k) then
    m.map (fun p => if p.1 == k then (k, v) else p)
  else m ++ [(k, v)]

/-- Go's `delete(m, k)` on the association-list model. -/
def delMapK (m : List (String × String)) (k : String) : List (String × String) :=
  m.filter (fun p => p.1 != k)

/-- Go's `m[k]` read: the value under `k`, if present. -/
def lookupMap : List (String × String) → String → Option String
  | [], _ => none
  | p :: rest, k => if p.1 = k then some p.2 else lookupMap rest k

/-- One `--label` or `--annotation` entry, as both loops of `updateConfig`
treat it: `strings.SplitN(spec, "=", 2)`; two parts set the key to the value,
one part deletes the key. -/
def applyKVSpec (m : List (String × String)) (spec : String) :
    List (String × String) :=
  match goSplitN2 spec '=' with
  | [k, v] => setMapKV m k v
  | [k] => delMapK m k
  | _ => m

/-- One `--port` entry: `builder.Expose[portSpec] = struct` marker — set
insertion on the key-set model of `Expose`. -/
def exposeAdd (e : List String) (p : String) : List String :=
  if e.contains p then e else e ++ [p]

/-- Model of `updateConfig` (`cmd/buildah/config.go`).  The Go function applies its
`if c.IsSet(...)` blocks sequentially, but every block writes a distinct
field of the builder, so the update is the simultaneous record update below.
`parse` stands for the external `shellwords.Parse` collaborator (`none` is a
tokenization error).  The second component collects the warnings
`logrus.Errorf` emits for unparsable `--entrypoint` / `--cmd` values, each as
(flag, offending string); a warning leaves the field unmodified and aborts
nothing. -/
def updateConfig (parse : String → Option (List String)) (c : ConfigOptions)
    (builder : Builder) : Builder × List (String × String) :=
  ({ builder with
      Maintainer := (match c.author with | some v => v | none => builder.Maintainer),
      CreatedBy := (match c.createdBy with | some v => v | none => builder.CreatedBy),
      Architecture := (match c.arch with | some v => v | none => builder.Architecture),
      OS := (match c.os with | some v => v | none => builder.OS),
      User := (match c.user with | some v => v | none => builder.User),
      Expose := (match c.port with
        | some ps => ps.foldl exposeAdd builder.Expose
        | none => builder.Expose),
      Env := (match c.env with
        | some es => builder.Env ++ es
        | none => builder.Env),
      Entrypoint := (match c.entrypoint with
        | some s => (match parse s with
          | some args => args
          | none => builder.Entrypoint)
        | none => builder.Entrypoint),
      Cmd := (match c.cmd with
        | some s => (match parse s with
          | some args => args
          | none => builder.Cmd)
        | none => builder.Cmd),
      Volumes := (match c.volume with
        | some vs => builder.Volumes ++ vs
        | none => builder.Volumes),
      Labels := (match c.label with
        | some ls => ls.foldl applyKVSpec builder.Labels
        | none => builder.Labels),
      Workdir := (match c.workingdir with | some v => v | none => builder.Workdir),
      Annotations := (match c.annotations with
        | some specs => specs.foldl applyKVSpec builder.Annotations
        | none => builder.Annotations) },
   (match c.entrypoint with
     | some s => (match parse s with
       | some _ => []
       | none => [("entrypoint", s)])
     | none => []) ++
   (match c.cmd with
     | some s => (match parse s with
       | some _ => []
       | none => [("cmd", s)])
     | none => []))

/-- A fully populated builder record, used to instantiate theorems with
hypotheses at a concrete input. -/
def sampleBuilder : Builder :=
  ⟨containerType, "docker.io/library/alpine", [1, 2, 3], [4, 5],
    "working-container", "abc123", "/mnt/c", ["/mnt/c", "/mnt/old"],
    ["/tmp/link"], [("note", "v")], "manual edits", "linux", "amd64",
    "me", "root", "/work", ["FOO=1"], ["sh"], ["/bin/sh"], ["80/tcp"],
    [("a", "1")], ["/data"], [("x", "y")]⟩

/-- A store container whose record decodes with the right type tag but lives
at another path. -/
def contNoMatch : StoreContainer :=
  ⟨"c1", false,
    some [("type", JVal.jstr containerType), ("mountpoint", JVal.jstr "/other")]⟩

/-- A store container whose record decodes with the right type tag and is
mounted at `/mnt/t`. -/
def contMatch : StoreContainer :=
  ⟨"c2", false,
    some [("type", JVal.jstr containerType), ("mountpoint", JVal.jstr "/mnt/t")]⟩

/-- A store container whose metadata bytes do not decode. -/
def contBadMeta : StoreContainer := ⟨"c0", false, none⟩

/-- Choosing the default back out of an `if` is the identity. -/
lemma keep_default {α : Type _} [DecidableEq α] (x d : α) :
    (if x = d then d else x) = x := by
  by_cases h : x = d <;> simp [h]

lemma ustep_type (b : Builder) (s : String) (rest : List (String × JVal)) :
    unmarshalAux b (("type", JVal.jstr s) :: rest)
      = unmarshalAux { b with «Type» := s } rest := rfl

lemma ustep_image (b : Builder) (x : String) (rest : List (String × JVal)) :
    unmarshalAux b (omitS "image" x ++ rest)
      = unmarshalAux { b with FromImage := if x = "" then b.FromImage else x } rest := by
  by_cases hx : x = "" <;> simp [omitS, hx, unmarshalAux, applyField]

lemma ustep_config (b : Builder) (x : List Nat) (rest : List (String × JVal)) :
    unmarshalAux b (omitB "config" x ++ rest)
      = unmarshalAux { b with Config := if x = [] then b.Config else x } rest := by
  by_cases hx : x = [] <;> simp [omitB, hx, unmarshalAux, applyField]

lemma ustep_manifest (b : Builder) (x : List Nat) (rest : List (String × JVal)) :
    unmarshalAux b (omitB "manifest" x ++ rest)
      = unmarshalAux { b with Manifest := if x = [] then b.Manifest else x } rest := by
  by_cases hx : x = [] <;> simp [omitB, hx, unmarshalAux, applyField]

lemma ustep_container (b : Builder) (x : String) (rest : List (String × JVal)) :
    unmarshalAux b (omitS "container-name" x ++ rest)
      = unmarshalAux { b with Container := if x = "" then b.Container else x } rest := by
  by_cases hx : x = "" <;> simp [omitS, hx, unmarshalAux, applyField]

lemma ustep_containerID (b : Builder) (x : String) (rest : List (String × JVal)) :
    unmarshalAux b (omitS "container-id" x ++ rest)
      = unmarshalAux { b with ContainerID := if x = "" then b.ContainerID else x } rest := by
  by_cases hx : x = "" <;> simp [omitS, hx, unmarshalAux, applyField]

lemma ustep_mountpoint (b : Builder) (x : String) (rest : List (String × JVal)) :
    unmarshalAux b (omitS "mountpoint" x ++ rest)
      = unmarshalAux { b with MountPoint := if x = "" then b.MountPoint else x } rest := by
  by_cases hx : x = "" <;> simp [omitS, hx, unmarshalAux, applyField]

lemma ustep_mounts (b : Builder) (x : List String) (rest : List (String × JVal)) :
    unmarshalAux b (omitA "mounts" x ++ rest)
      = unmarshalAux { b with Mounts := if x = [] then b.Mounts else x } rest := by
  by_cases hx : x = [] <;> simp [omitA, hx, unmarshalAux, applyField]

lemma ustep_links (b : Builder) (x : List String) (rest : List (String × JVal)) :
    unmarshalAux b (omitA "links" x ++ rest)
      = unmarshalAux { b with Links := if x = [] then b.Links else x } rest := by
  by_cases hx : x = [] <;> simp [omitA, hx, unmarshalAux, applyField]

lemma ustep_annotations (b : Builder) (x : List (String × String))
    (rest : List (String × JVal)) :
    unmarshalAux b (omitM "annotations" x ++ rest)
      = unmarshalAux { b with Annotations := if x = [] then b.Annotations else x } rest := by
  by_cases hx : x = [] <;> simp [omitM, hx, unmarshalAux, applyField]

lemma ustep_createdBy (b : Builder) (x : String) (rest : List (String × JVal)) :
    unmarshalAux b (omitS "created-by" x ++ rest)
      = unmarshalAux { b with CreatedBy := if x = "" then b.CreatedBy else x } rest := by
  by_cases hx : x = "" <;> simp [omitS, hx, unmarshalAux, applyField]

lemma ustep_os (b : Builder) (x : String) (rest : List (String × JVal)) :
    unmarshalAux b (omitS "os" x ++ rest)
      = unmarshalAux { b with OS := if x = "" then b.OS else x } rest := by
  by_cases hx : x = "" <;> simp [omitS, hx, unmarshalAux, applyField]

lemma ustep_arch (b : Builder) (x : String) (rest : List (String × JVal)) :
    unmarshalAux b (omitS "arch" x ++ rest)
      = unmarshalAux { b with Architecture := if x = "" then b.Architecture else x } rest := by
  by_cases hx : x = "" <;> simp [omitS, hx, unmarshalAux, applyField]

lemma ustep_maintainer (b : Builder) (x : String) (rest : List (String × JVal)) :
    unmarshalAux b (omitS "maintainer" x ++ rest)
      = unmarshalAux { b with Maintainer := if x = "" then b.Maintainer else x } rest := by
  by_cases hx : x = "" <;> simp [omitS, hx, unmarshalAux, applyField]

lemma ustep_user (b : Builder) (x : String) (rest : List (String × JVal)) :
    unmarshalAux b (omitS "user" x ++ rest)
      = unmarshalAux { b with User := if x = "" then b.User else x } rest := by
  by_cases hx : x = "" <;> simp [omitS, hx, unmarshalAux, applyField]

lemma ustep_workingdir (b : Builder) (x : String) (rest : List (String × JVal)) :
    unmarshalAux b (omitS "workingdir" x ++ rest)
      = unmarshalAux { b with Workdir := if x = "" then b.Workdir else x } rest := by
  by_cases hx : x = "" <;> simp [omitS, hx, unmarshalAux, applyField]

lemma ustep_env (b : Builder) (x : List String) (rest : List (String × JVal)) :
    unmarshalAux b (omitA "env" x ++ rest)
      = unmarshalAux { b with Env := if x = [] then b.Env else x } rest := by
  by_cases hx : x = [] <;> simp [omitA, hx, unmarshalAux, applyField]

lemma ustep_cmd (b : Builder) (x : List String) (rest : List (String × JVal)) :
    unmarshalAux b (omitA "cmd" x ++ rest)
      = unmarshalAux { b with Cmd := if x = [] then b.Cmd else x } rest := by
  by_cases hx : x = [] <;> simp [omitA, hx, unmarshalAux, applyField]

lemma ustep_entrypoint (b : Builder) (x : List String) (rest : List (String × JVal)) :
    unmarshalAux b (omitA "entrypoint" x ++ rest)
      = unmarshalAux { b with Entrypoint := if x = [] then b.Entrypoint else x } rest := by
  by_cases hx : x = [] <;> simp [omitA, hx, unmarshalAux, applyField]

lemma ustep_expose (b : Builder) (x : List String) (rest : List (String × JVal)) :
    unmarshalAux b (omitE "expose" x ++ rest)
      = unmarshalAux { b with Expose := if x = [] then b.Expose else x } rest := by
  by_cases hx : x = [] <;> simp [omitE, hx, unmarshalAux, applyField]

lemma ustep_labels (b : Builder) (x : List (String × String))
    (rest : List (String × JVal)) :
    unmarshalAux b (omitM "labels" x ++ rest)
      = unmarshalAux { b with Labels := if x = [] then b.Labels else x } rest := by
  by_cases hx : x = [] <;> simp [omitM, hx, unmarshalAux, applyField]

lemma ustep_volumes (b : Builder) (x : List String) (rest : List (String × JVal)) :
    unmarshalAux b (omitA "volumes" x ++ rest)
      = unmarshalAux { b with Volumes := if x = [] then b.Volumes else x } rest := by
  by_cases hx : x = [] <;> simp [omitA, hx, unmarshalAux, applyField]

lemma ustep_arg_last (b : Builder) (x : List (String × String)) :
    unmarshalAux b (omitM "arg" x)
      = some { b with Arg := if x = [] then b.Arg else x } := by
  by_cases hx : x = [] <;> simp [omitM, hx, unmarshalAux, applyField]

/-- Unmarshalling the bytes `Save` marshals restores every field. -/
lemma marshal_unmarshal (b : Builder) : unmarshalBuilder (marshalBuilder b) = some b := by
  show unmarshalAux emptyBuilder (marshalBuilder b) = some b
  rw [marshalBuilder, ustep_type, ustep_image, ustep_config, ustep_manifest,
    ustep_container, ustep_containerID, ustep_mountpoint, ustep_mounts, ustep_links,
    ustep_annotations, ustep_createdBy, ustep_os, ustep_arch, ustep_maintainer,
    ustep_user, ustep_workingdir, ustep_env, ustep_cmd, ustep_entrypoint,
    ustep_expose, ustep_labels, ustep_volumes, ustep_arg_last]
  simp [emptyBuilder, keep_default]

lemma openByPath_cons_hit (c : StoreContainer) (rest : List StoreContainer)
    (path : String) (b : Builder) (he : c.metadataErr = false)
    (hm : candMatch path c = some b) :
    openBuilderByPath (c :: rest) path = Except.ok b := by
  cases hu : c.metadata.bind unmarshalBuilder with
  | none => simp [candMatch, hu] at hm
  | some b2 =>
    by_cases hc : b2.«Type» = containerType ∧ builderMatchesPath b2 path
    · have hb2 : b2 = b := by simpa [candMatch, hu, hc] using hm
      subst hb2
      simp [openBuilderByPath, he, hu, hc.1, hc.2]
    · simp [candMatch, hu, hc] at hm

lemma openByPath_cons_miss (c : StoreContainer) (rest : List StoreContainer)
    (path : String) (he : c.metadataErr = false) (hm : candMatch path c = none) :
    openBuilderByPath (c :: rest) path = openBuilderByPath rest path := by
  cases hu : c.metadata.bind unmarshalBuilder with
  | none => simp [openBuilderByPath, he, hu]
  | some b2 =>
    by_cases hc : b2.«Type» = containerType ∧ builderMatchesPath b2 path
    · simp [candMatch, hu, hc] at hm
    · simp [openBuilderByPath, he, hu, hc]

lemma openByPath_first_match (path : String) (b : Builder) :
    ∀ (pre : List StoreContainer) (c : StoreContainer) (post : List StoreContainer),
      (∀ x ∈ pre ++ c :: post, x.metadataErr = false) →
      (∀ p ∈ pre, candMatch path p = none) →
      candMatch path c = some b →
      openBuilderByPath (pre ++ c :: post) path = Except.ok b := by
  intro pre
  induction pre with
  | nil =>
    intro c post hre _ hc
    exact openByPath_cons_hit c post path b (hre c (by simp)) hc
  | cons p ps ih =>
    intro c post hre hpre hc
    rw [List.cons_append,
      openByPath_cons_miss p (ps ++ c :: post) path (hre p (by simp))
        (hpre p (by simp))]
    exact ih c post (fun x hx => hre x (by simp [hx])) (fun x hx => hpre x (by simp [hx])) hc

lemma openByPath_no_match (path : String) :
    ∀ cs : List StoreContainer,
      (∀ x ∈ cs, x.metadataErr = false) →
      (∀ c ∈ cs, candMatch path c = none) →
      openBuilderByPath cs path = Except.error BuildahError.notFound := by
  intro cs
  induction cs with
  | nil => intro _ _; rfl
  | cons c rest ih =>
    intro hre hnm
    rw [openByPath_cons_miss c rest path (hre c (by simp)) (hnm c (by simp))]
    exact ih (fun x hx => hre x (by simp [hx])) (fun x hx => hnm x (by simp [hx]))

/-- C1: serializing a valid Builder record (one whose `Type` tag is the fixed
`containerType`) with `Save`'s encoding and decoding those bytes as
`OpenBuilder` does — `json.Unmarshal` into a fresh `Builder`, then the type
check — yields the original record, equal in every persisted field (the
unexported store handle is not part of the record). -/
theorem save_openBuilder_roundtrip (b : Builder) (h : b.«Type» = containerType) :
    openBuilderDecode (marshalBuilder b) = Except.ok b := by
  simp [openBuilderDecode, marshal_unmarshal, h]

/-- Witness for C1 at a fully populated concrete record. -/
theorem save_openBuilder_roundtrip_witness :
    sampleBuilder.«Type» = containerType ∧
      openBuilderDecode (marshalBuilder sampleBuilder) = Except.ok sampleBuilder :=
  ⟨rfl, save_openBuilder_roundtrip sampleBuilder rfl⟩

/-- C2: whenever the decoded record's `Type` tag differs from `containerType`
(in particular when the tag is missing, since a fresh `Builder`'s tag is the
empty string), `OpenBuilder`'s decoding returns a type-mismatch error and no
Builder; conversely any Builder it returns has `Type = containerType`. -/
theorem openBuilder_type_guard :
    ∀ fields : List (String × JVal),
      (∀ b : Builder, unmarshalBuilder fields = some b →
        b.«Type» ≠ containerType →
        openBuilderDecode fields = Except.error BuildahError.typeMismatch) ∧
      (∀ b : Builder, openBuilderDecode fields = Except.ok b →
        b.«Type» = containerType) := by
  intro fields
  constructor
  · intro b hu ht
    simp [openBuilderDecode, hu, ht]
  · intro b hok
    by_cases hT : b.«Type» = containerType
    · exact hT
    · exfalso
      cases hu : unmarshalBuilder fields with
      | none => simp [openBuilderDecode, hu] at hok
      | some b2 =>
        by_cases h2 : b2.«Type» = containerType
        · simp only [openBuilderDecode, hu, if_pos h2, Except.ok.injEq] at hok
          exact hT (hok ▸ h2)
        · simp [openBuilderDecode, hu, h2] at hok

/-- C3: over a store whose metadata reads succeed, a path-based lookup
returns the first container (in store enumeration order) whose metadata
decodes to a build-container record matching the absolutized path — in
particular, when exactly one matches it returns exactly that record — and
returns the not-found error (`storage.ErrContainerUnknown`) when no
container matches. -/
theorem openBuilderByPath_correct (cs : List StoreContainer) (path : String)
    (hre : ∀ x ∈ cs, x.metadataErr = false) :
    (∀ (pre : List StoreContainer) (c : StoreContainer)
        (post : List StoreContainer) (b : Builder),
      cs = pre ++ c :: post →
      (∀ p ∈ pre, candMatch path p = none) →
      candMatch path c = some b →
      openBuilderByPath cs path = Except.ok b) ∧
    ((∀ c ∈ cs, candMatch path c = none) →
      openBuilderByPath cs path = Except.error BuildahError.notFound) := by
  constructor
  · intro pre c post b hcs hpre hc
    subst hcs
    exact openByPath_first_match path b pre c post hre hpre hc
  · intro hnm
    exact openByPath_no_match path cs hre hnm

/-- Witness for C3: in a two-container store where only the second container
matches `/mnt/t`, the lookup returns exactly its record; in a store where no
container matches, it returns the not-found error. -/
theorem openBuilderByPath_correct_witness :
    openBuilderByPath [contNoMatch, contMatch] "/mnt/t"
      = Except.ok { emptyBuilder with «Type» := containerType, MountPoint := "/mnt/t" } ∧
    openBuilderByPath [contNoMatch] "/mnt/t" = Except.error BuildahError.notFound :=
  ⟨(openBuilderByPath_correct [contNoMatch, contMatch] "/mnt/t" (by decide)).1
      [contNoMatch] contMatch [] _ rfl (by decide) (by decide),
    (openBuilderByPath_correct [contNoMatch] "/mnt/t" (by decide)).2 (by decide)⟩

/-- C5: a path-based lookup skips a candidate container whose metadata fails
to decode or whose decoded `Type` tag differs from `containerType`: the scan
over the remaining containers continues exactly as if the candidate were not
there, instead of aborting with an error. -/
theorem openBuilderByPath_skips (c : StoreContainer) (cs : List StoreContainer)
    (path : String) (he : c.metadataErr = false)
    (hskip : c.metadata.bind unmarshalBuilder = none ∨
      ∀ b, c.metadata.bind unmarshalBuilder = some b → b.«Type» ≠ containerType) :
    openBuilderByPath (c :: cs) path = openBuilderByPath cs path := by
  apply openByPath_cons_miss c cs path he
  cases hu : c.metadata.bind unmarshalBuilder with
  | none => simp [candMatch, hu]
  | some b =>
    rcases hskip with h | h
    · rw [h] at hu; cases hu
    · simp [candMatch, hu, h b hu]

/-- Witness for C5: a container with undecodable metadata in front of a
matching one is skipped, and the scan still finds the matching one. -/
theorem openBuilderByPath_skips_witness :
    openBuilderByPath [contBadMeta, contMatch] "/mnt/t"
      = openBuilderByPath [contMatch] "/mnt/t" :=
  openBuilderByPath_skips contBadMeta [contMatch] "/mnt/t" rfl (Or.inl rfl)

lemma find_filter_keyne {β : Type _} (l : List (String × β)) (p q : String)
    (h : q ≠ p) :
    (l.filter (fun r => r.1 != p)).find? (fun r => r.1 == q)
      = l.find? (fun r => r.1 == q) := by
  induction l with
  | nil => rfl
  | cons a rest ih =>
    have hpq : ¬ p = q := fun e => h e.symm
    by_cases hp : a.1 = p
    · have hq : ¬ a.1 = q := by rw [hp]; exact hpq
      simp [List.filter_cons, hp, List.find?_cons, hq, hpq, ih]
    · by_cases hq : a.1 = q
      · simp [List.filter_cons, hp, List.find?_cons, hq, h, hpq]
      · simp [List.filter_cons, hp, List.find?_cons, hq, h, hpq, ih]

lemma fsRead_fsWrite (fs : FS) (p q : String) (d : FileData) :
    fsRead (fsWrite fs p d) q = if q = p then some d else fsRead fs q := by
  by_cases h : q = p
  · subst h
    simp [fsRead, fsWrite, List.find?_cons]
  · have hpq : ¬ p = q := fun e => h e.symm
    simp [fsRead, fsWrite, List.find?_cons, h, hpq, find_filter_keyne _ p q h]

lemma fsRead_fsRemove (fs : FS) (p q : String) :
    fsRead (fsRemove fs p) q = if q = p then none else fsRead fs q := by
  by_cases h : q = p
  · subst h
    simp only [fsRemove, fsRead, if_pos rfl]
    rw [List.find?_eq_none.mpr]
    · rfl
    · intro x hx
      have := List.of_mem_filter hx
      simpa using this
  · simp [fsRead, fsRemove, h, find_filter_keyne _ p q h]

lemma tmpFile_ne_targetFile (cdir : String) : tmpFile cdir ≠ targetFile cdir := by
  intro h
  have hd := congrArg String.data h
  simp only [tmpFile, targetFile, String.data_append] at hd
  rw [List.append_assoc, List.append_assoc] at hd
  have := List.append_cancel_left hd
  revert this
  decide

/-- C4: `Save` is all-or-nothing.  A failure before the write (the directory
lookup; `json.Marshal` cannot fail on this record type) produces an error
with nothing written; during the atomic write, every filesystem state
observable before the rename — and the cleanup state after a failure at any
point of the temporary-file write — still reads the previously persisted
metadata file unchanged; on success the file reads the complete new
encoding.  No state ever holds a partial target file. -/
theorem save_atomic (b : Builder) (getDir : String → Option String) (fs : FS)
    (cdir : String) :
    (getDir b.ContainerID = none →
      save b getDir fs = Except.error BuildahError.storeErr) ∧
    (getDir b.ContainerID = some cdir →
      save b getDir fs
          = Except.ok (atomicCommit fs (targetFile cdir) (tmpFile cdir)
              (marshalBuilder b)) ∧
        (∀ s ∈ atomicPreStates fs (tmpFile cdir) (marshalBuilder b),
          fsRead s (targetFile cdir) = fsRead fs (targetFile cdir)) ∧
        (∀ k, fsRead (atomicAbort fs (tmpFile cdir) (marshalBuilder b) k)
            (targetFile cdir) = fsRead fs (targetFile cdir)) ∧
        fsRead (atomicCommit fs (targetFile cdir) (tmpFile cdir) (marshalBuilder b))
            (targetFile cdir) = some (marshalBuilder b)) := by
  have hne : targetFile cdir ≠ tmpFile cdir :=
    fun e => tmpFile_ne_targetFile cdir e.symm
  constructor
  · intro h
    simp [save, h]
  · intro h
    refine ⟨by simp [save, h], ?_, ?_, ?_⟩
    · intro s hs
      simp only [atomicPreStates, List.mem_cons, List.mem_map, List.mem_range] at hs
      rcases hs with rfl | ⟨k, _, rfl⟩
      · rfl
      · rw [fsRead_fsWrite, if_neg hne]
    · intro k
      rw [atomicAbort, fsRead_fsRemove, if_neg hne, fsRead_fsWrite, if_neg hne]
    · rw [atomicCommit, fsRead_fsWrite, if_pos rfl]

lemma splitFirst_append (v : List Char) :
    ∀ k : List Char, '=' ∉ k → splitFirst '=' (k ++ '=' :: v) = some (k, v) := by
  intro k
  induction k with
  | nil => intro _; simp [splitFirst]
  | cons ch ks ih =>
    intro h
    have hch : ¬ ch = '=' := fun e => h (by simp [e])
    simp [splitFirst, hch, ih (fun hm => h (by simp [hm]))]

lemma splitFirst_none : ∀ l : List Char, '=' ∉ l → splitFirst '=' l = none := by
  intro l
  induction l with
  | nil => intro _; rfl
  | cons ch ks ih =>
    intro h
    have hch : ¬ ch = '=' := fun e => h (by simp [e])
    simp [splitFirst, hch, ih (fun hm => h (by simp [hm]))]

lemma goSplitN2_set (k v : String) (h : '=' ∉ k.data) :
    goSplitN2 (k ++ "=" ++ v) '=' = [k, v] := by
  have hd : (k ++ "=" ++ v).data = k.data ++ '=' :: v.data := by
    simp [String.data_append]
  rw [goSplitN2, hd, splitFirst_append v.data k.data h]

lemma goSplitN2_del (k : String) (h : '=' ∉ k.data) : goSplitN2 k '=' = [k] := by
  rw [goSplitN2, splitFirst_none k.data h]

lemma lookup_map_replace (k v q : String) :
    ∀ m : List (String × String),
      lookupMap (m.map (fun p => if p.1 == k then (k, v) else p)) q
        = if q = k then (if m.any (fun p => p.1 == k) then some v else none)
          else lookupMap m q := by
  intro m
  induction m with
  | nil => by_cases hqk : q = k <;> simp [lookupMap, hqk]
  | cons a rest ih =>
    by_cases hak : a.1 = k
    · by_cases hqk : q = k
      · subst hqk
        simp [lookupMap, hak]
      · have hkq : ¬ k = q := fun e => hqk e.symm
        have haq : ¬ a.1 = q := by rw [hak]; exact hkq
        simp [lookupMap, hak, hkq, hqk, haq] at ih ⊢
        exact ih
    · by_cases haq : a.1 = q
      · have hqk : ¬ q = k := fun e => hak (haq.trans e)
        simp [lookupMap, hak, haq, hqk]
      · have hbk : (a.1 == k) = false := by simp [hak]
        simp [lookupMap, hak, haq] at ih ⊢
        rw [hbk]
        exact ih

lemma lookup_append_single (k v q : String) :
    ∀ m : List (String × String),
      lookupMap (m ++ [(k, v)]) q
        = match lookupMap m q with
          | some w => some w
          | none => if q = k then some v else none := by
  intro m
  induction m with
  | nil =>
    by_cases hqk : q = k
    · subst hqk; simp [lookupMap]
    · have hkq : ¬ k = q := fun e => hqk e.symm
      simp [lookupMap, hqk, hkq]
  | cons a rest ih =>
    by_cases haq : a.1 = q
    · simp [lookupMap, haq]
    · simp [lookupMap, haq, ih]

lemma lookup_none_of_not_any (m : List (String × String)) (k : String)
    (h : m.any (fun p => p.1 == k) = false) : lookupMap m k = none := by
  induction m with
  | nil => rfl
  | cons a rest ih =>
    simp only [List.any_cons, Bool.or_eq_false_iff] at h
    have hak : ¬ a.1 = k := by simpa using h.1
    simp [lookupMap, hak, ih h.2]

lemma lookupMap_setMapKV (m : List (String × String)) (k v q : String) :
    lookupMap (setMapKV m k v) q = if q = k then some v else lookupMap m q := by
  by_cases hany : m.any (fun p => p.1 == k) = true
  · rw [setMapKV, if_pos hany, lookup_map_replace]
    simp [hany]
  · rw [setMapKV, if_neg hany, lookup_append_single]
    by_cases hqk : q = k
    · subst hqk
      rw [lookup_none_of_not_any m q (Bool.eq_false_iff.mpr hany)]
    · cases hl : lookupMap m q <;> simp [hqk, hl]

lemma lookupMap_delMapK (m : List (String × String)) (k q : String) :
    lookupMap (delMapK m k) q = if q = k then none else lookupMap m q := by
  induction m with
  | nil => by_cases h : q = k <;> simp [delMapK, lookupMap, h]
  | cons a rest ih =>
    by_cases hak : a.1 = k
    · have hfc : delMapK (a :: rest) k = delMapK rest k := by
        simp [delMapK, List.filter_cons, hak]
      by_cases hqk : q = k
      · rw [hfc, ih]
        simp [hqk]
      · have haq : ¬ a.1 = q := by rw [hak]; exact fun e => hqk e.symm
        rw [hfc, ih, if_neg hqk]
        simp [lookupMap, haq, hqk]
    · have hfc : delMapK (a :: rest) k = a :: delMapK rest k := by
        simp [delMapK, List.filter_cons, hak]
      by_cases haq : a.1 = q
      · have hqk : ¬ q = k := fun e => hak (haq.trans e)
        rw [hfc]
        simp [lookupMap, haq, hqk]
      · rw [hfc]
        simp only [lookupMap, haq, if_neg haq]
        rw [show lookupMap (delMapK rest k) q = _ from ih]
        by_cases hqk : q = k <;> simp [hqk, lookupMap, haq]

lemma applyKVSpec_set (m : List (String × String)) (k v q : String)
    (h : '=' ∉ k.data) :
    lookupMap (applyKVSpec m (k ++ "=" ++ v)) q
      = if q = k then some v else lookupMap m q := by
  rw [applyKVSpec, goSplitN2_set k v h]
  exact lookupMap_setMapKV m k v q

lemma applyKVSpec_del (m : List (String × String)) (k q : String)
    (h : '=' ∉ k.data) :
    lookupMap (applyKVSpec m k) q = if q = k then none else lookupMap m q := by
  rw [applyKVSpec, goSplitN2_del k h]
  exact lookupMap_delMapK m k q

/-- C6: `updateConfig` applies each supplied `--label` entry to `Labels` (and
each `--annotation` entry to `Annotations`) by splitting on the first `=`:
an entry `k=v` (key free of `=`) sets the key `k` — the text before the
first `=` — to the remaining text, an entry without `=` deletes its key (a
no-op if absent, every other key untouched); applying `["a=1", "b"]` to
labels `b ↦ x, c ↦ y` yields exactly `c ↦ y, a ↦ 1`. -/
theorem config_label_semantics :
    ∀ (parse : String → Option (List String)) (c : ConfigOptions) (b : Builder),
      (∀ ls, c.label = some ls →
        (updateConfig parse c b).1.Labels = ls.foldl applyKVSpec b.Labels) ∧
      (∀ specs, c.annotations = some specs →
        (updateConfig parse c b).1.Annotations
          = specs.foldl applyKVSpec b.Annotations) ∧
      (∀ (m : List (String × String)) (k v q : String), '=' ∉ k.data →
        lookupMap (applyKVSpec m (k ++ "=" ++ v)) q
          = if q = k then some v else lookupMap m q) ∧
      (∀ (m : List (String × String)) (k q : String), '=' ∉ k.data →
        lookupMap (applyKVSpec m k) q
          = if q = k then none else lookupMap m q) ∧
      (updateConfig (fun _ => none) { noOptions with label := some ["a=1", "b"] }
          { emptyBuilder with Labels := [("b", "x"), ("c", "y")] }).1.Labels
        = [("c", "y"), ("a", "1")] := by
  intro parse c b
  refine ⟨?_, ?_, ?_, ?_, by decide⟩
  · intro ls hl
    simp [updateConfig, hl]
  · intro specs hl
    simp [updateConfig, hl]
  · intro m k v q h
    exact applyKVSpec_set m k v q h
  · intro m k q h
    exact applyKVSpec_del m k q h

/-- C7: supplied `--env` and `--volume` values are appended to the existing
`Env` and `Volumes` sequences, never replacing them, and duplicates are
kept: supplying `FOO=1` twice yields two identical entries. -/
theorem config_append_semantics :
    ∀ (parse : String → Option (List String)) (c : ConfigOptions) (b : Builder),
      (∀ es, c.env = some es → (updateConfig parse c b).1.Env = b.Env ++ es) ∧
      (∀ vs, c.volume = some vs →
        (updateConfig parse c b).1.Volumes = b.Volumes ++ vs) ∧
      (updateConfig (fun _ => none) { noOptions with env := some ["FOO=1", "FOO=1"] }
          emptyBuilder).1.Env = ["FOO=1", "FOO=1"] := by
  intro parse c b
  refine ⟨?_, ?_, by decide⟩
  · intro es he
    simp [updateConfig, he]
  · intro vs hv
    simp [updateConfig, hv]

/-- C8: when the supplied `--entrypoint` (resp. `--cmd`) string fails POSIX
tokenization, `updateConfig` records a warning for it, leaves `Entrypoint`
(resp. `Cmd`) unmodified, and the resulting record is exactly what the same
update without that flag produces — every other supplied field is still
applied, nothing aborts. -/
theorem config_tokenize_failure :
    ∀ (parse : String → Option (List String)) (c : ConfigOptions) (b : Builder),
      (∀ s, c.entrypoint = some s → parse s = none →
        (updateConfig parse c b).1.Entrypoint = b.Entrypoint ∧
        ("entrypoint", s) ∈ (updateConfig parse c b).2 ∧
        (updateConfig parse c b).1
          = (updateConfig parse { c with entrypoint := none } b).1) ∧
      (∀ s, c.cmd = some s → parse s = none →
        (updateConfig parse c b).1.Cmd = b.Cmd ∧
        ("cmd", s) ∈ (updateConfig parse c b).2 ∧
        (updateConfig parse c b).1
          = (updateConfig parse { c with cmd := none } b).1) := by
  intro parse c b
  constructor
  · intro s hs hp
    refine ⟨by simp [updateConfig, hs, hp], by simp [updateConfig, hs, hp], ?_⟩
    simp [updateConfig, hs, hp]
  · intro s hs hp
    refine ⟨by simp [updateConfig, hs, hp], by simp [updateConfig, hs, hp], ?_⟩
    simp [updateConfig, hs, hp]

/-- C9: `updateConfig` never modifies `Type`, `FromImage`, `Config`,
`Manifest`, `Container`, `ContainerID`, `MountPoint`, `Mounts`, `Links` or
`Arg`, and every field whose flag is not set keeps its existing value — "not
specified" is distinguished from "specified as empty". -/
theorem config_frame :
    ∀ (parse : String → Option (List String)) (c : ConfigOptions) (b : Builder),
      ((updateConfig parse c b).1.«Type» = b.«Type» ∧
        (updateConfig parse c b).1.FromImage = b.FromImage ∧
        (updateConfig parse c b).1.Config = b.Config ∧
        (updateConfig parse c b).1.Manifest = b.Manifest ∧
        (updateConfig parse c b).1.Container = b.Container ∧
        (updateConfig parse c b).1.ContainerID = b.ContainerID ∧
        (updateConfig parse c b).1.MountPoint = b.MountPoint ∧
        (updateConfig parse c b).1.Mounts = b.Mounts ∧
        (updateConfig parse c b).1.Links = b.Links ∧
        (updateConfig parse c b).1.Arg = b.Arg) ∧
      (c.author = none → (updateConfig parse c b).1.Maintainer = b.Maintainer) ∧
      (c.createdBy = none → (updateConfig parse c b).1.CreatedBy = b.CreatedBy) ∧
      (c.arch = none → (updateConfig parse c b).1.Architecture = b.Architecture) ∧
      (c.os = none → (updateConfig parse c b).1.OS = b.OS) ∧
      (c.user = none → (updateConfig parse c b).1.User = b.User) ∧
      (c.port = none → (updateConfig parse c b).1.Expose = b.Expose) ∧
      (c.env = none → (updateConfig parse c b).1.Env = b.Env) ∧
      (c.entrypoint = none → (updateConfig parse c b).1.Entrypoint = b.Entrypoint) ∧
      (c.cmd = none → (updateConfig parse c b).1.Cmd = b.Cmd) ∧
      (c.volume = none → (updateConfig parse c b).1.Volumes = b.Volumes) ∧
      (c.label = none → (updateConfig parse c b).1.Labels = b.Labels) ∧
      (c.workingdir = none → (updateConfig parse c b).1.Workdir = b.Workdir) ∧
      (c.annotations = none →
        (updateConfig parse c b).1.Annotations = b.Annotations) := by
  intro parse c b
  refine ⟨⟨rfl, rfl, rfl, rfl, rfl, rfl, rfl, rfl, rfl, rfl⟩,
    ?_, ?_, ?_, ?_, ?_, ?_, ?_, ?_, ?_, ?_, ?_, ?_, ?_⟩ <;>
    intro h <;> simp [updateConfig, h]

/-- C10: when the supplied `--entrypoint` (resp. `--cmd`) string tokenizes
successfully, the parsed argument sequence replaces the entire existing
`Entrypoint` (resp. `Cmd`) value — it is not appended to it. -/
theorem config_replace_semantics :
    ∀ (parse : String → Option (List String)) (c : ConfigOptions) (b : Builder),
      (∀ s args, c.entrypoint = some s → parse s = some args →
        (updateConfig parse c b).1.Entrypoint = args) ∧
      (∀ s args, c.cmd = some s → parse s = some args →
        (updateConfig parse c b).1.Cmd = args) := by
  intro parse c b
  constructor <;> intro s args hs hp <;> simp [updateConfig, hs, hp]

end Buildah
